import Mathlib

/-!
Shallow embedding of `src/main.rs` of safe_backup_rust: an interactive
backup / restore / delete tool with filename validation, a copy-to-temp
plus rename replace protocol, confirmation prompts and an append-only
audit log.

Modelling conventions:
* File contents are byte lists (`List Nat`); the filesystem is an
  association list from filename to contents (`FS`).
* Interactive stdin is a list of pending input lines (without their
  trailing newline); `readLine` on exhausted input yields `""`, matching
  `read_line` returning an empty read at end of input.
* `io::copy` may be interrupted: the fault parameter `copied : Nat → Nat`
  gives the number of bytes actually written for a source of a given
  length (an uninterrupted run is `copied = id`); the temp file then holds
  a prefix of the source, as a truncated stream copy would.
* The audit log (`logfile.txt`, opened create+append) is modelled as the
  list of its lines; the fault parameter `logOk : Bool` tells whether the
  append succeeds.  The wall-clock timestamp that `chrono::Local::now`
  formats is an opaque parameter `ts`.
* `Char.toLower`, like the comparison the program performs against the
  ASCII literal "yes", maps ASCII letters; `Char.isWhitespace` covers the
  whitespace the prompts can see (space, tab, CR, LF).
-/

namespace SafeBackup

/-- Mirrors `MAX_FILENAME_LENGTH` (main.rs line 10). -/
def MAX_FILENAME_LENGTH : Nat := 255

/-- Mirrors `MAX_FILE_SIZE` (main.rs line 11): 10 MiB. -/
def MAX_FILE_SIZE : Nat := 10 * 1024 * 1024

/-- Mirrors `VALID_CHAR` (main.rs line 12). -/
def VALID_CHAR : String := "abcdefghijklmnopqrstuvwxyzABCDEFGHIJKLMNOPQRSTUVWXYZ0123456789_-."

/-- Mirrors Rust `str::contains("..")`: does the character list contain two
consecutive dots? -/
def containsDotDot : List Char → Bool
  | c1 :: c2 :: rest => (c1 == '.' && c2 == '.') || containsDotDot (c2 :: rest)
  | _ => false

/-- Mirrors `isValidFilename` (main.rs lines 14-24).  Rust `str::len()` is the
UTF-8 byte length, hence `utf8ByteSize`; `contains`/`chars().all` walk the
characters. -/
def isValidFilename (filename : String) : Bool :=
  if filename.data.isEmpty || decide (MAX_FILENAME_LENGTH < filename.utf8ByteSize) then false
  else if containsDotDot filename.data || filename.data.contains '/'
      || filename.data.contains '\\' then false
  else filename.data.all fun c => VALID_CHAR.data.contains c

/-- Error kinds: the `io::ErrorKind` values the program constructs, plus
`other` for propagated I/O failures (here: a failed audit-log write). -/
inductive ErrKind where
  | invalidInput
  | notFound
  | invalidData
  | permissionDenied
  | other
  deriving DecidableEq

/-- Result of an action, mirroring `io::Result<()>`. -/
inductive OpRes where
  | ok
  | err : ErrKind → OpRes
  deriving DecidableEq

/-- The filesystem: an association list from filename to byte contents. -/
structure FS where
  files : List (String × List Nat)
  deriving DecidableEq

/-- Contents of a file, if it exists. -/
def FS.read (fs : FS) (name : String) : Option (List Nat) :=
  (fs.files.find? fun p => p.1 == name).map fun p => p.2

/-- Mirrors `Path::exists`. -/
def FS.existsFile (fs : FS) (name : String) : Bool :=
  (fs.read name).isSome

/-- Create-or-truncate write, mirroring `File::create` plus the bytes written. -/
def FS.write (fs : FS) (name : String) (content : List Nat) : FS :=
  ⟨(name, content) :: fs.files.filter fun p => !(p.1 == name)⟩

/-- Mirrors `fs::remove_file`. -/
def FS.removeFile (fs : FS) (name : String) : FS :=
  ⟨fs.files.filter fun p => !(p.1 == name)⟩

/-- Mirrors `fs::rename src dst`: dst receives src's contents, src disappears. -/
def FS.rename (fs : FS) (src dst : String) : FS :=
  match fs.read src with
  | none => fs
  | some c => (fs.removeFile src).write dst c

/-- Program state outside the control flow: files, pending stdin lines,
audit-log lines. -/
structure World where
  fs : FS
  stdin : List String
  log : List String
  deriving DecidableEq

/-- Mirrors `io::stdin().read_line`: consume the next pending line ("" at end
of input). -/
def readLine : List String → String × List String
  | [] => ("", [])
  | l :: ls => (l, ls)

/-- Mirrors Rust `str::trim` on the character list (strip leading and trailing
whitespace). -/
def trimChars (l : List Char) : List Char :=
  ((l.dropWhile Char.isWhitespace).reverse.dropWhile Char.isWhitespace).reverse

/-- Rust `str::trim` as a `String` function. -/
def trim (s : String) : String :=
  ⟨trimChars s.data⟩

/-- Rust `str::to_lowercase` (ASCII case mapping suffices for the literals the
program compares against). -/
def toLower (s : String) : String :=
  ⟨s.data.map Char.toLower⟩

/-- Mirrors the sanitisation in `logAction` (main.rs line 204):
`action.replace("\n", " ").replace("\r", " ")`; for one-character patterns the
two sequential replaces are exactly this two-pass character map. -/
def sanitize (action : String) : String :=
  ⟨(action.data.map fun c => if c = '\n' then ' ' else c).map
    fun c => if c = '\r' then ' ' else c⟩

/-- Mirrors `logAction` (main.rs lines 202-216): sanitise, stamp, append one
line to the log opened in create+append mode.  Returns the new log contents
and the result; a failed append (`logOk = false`) leaves the log unchanged and
surfaces an I/O error. -/
def logAction (action : String) (ts : String) (logOk : Bool)
    (log : List String) : List String × OpRes :=
  if logOk then (log ++ ["[" ++ ts ++ "] " ++ sanitize action], .ok)
  else (log, .err .other)

/-- Mirrors the copy-to-temp / verify / rename / log block that appears
verbatim in `backupFile` (main.rs lines 64-88, dst = `<filename>.bak`) and in
`restoreFile` (lines 136-159, dst = `<filename>`): create `<dst>.tmp`, stream
the source bytes into it, on a byte-count mismatch delete the temp and fail
with InvalidData, otherwise rename the temp onto dst and append the audit-log
line, propagating a log failure. -/
def copyThenRename (srcContent : List Nat) (dst : String) (copied : Nat → Nat)
    (logMsg : String) (logOk : Bool) (ts : String) (w : World) : World × OpRes :=
  let currPath := dst ++ ".tmp"
  let n := copied srcContent.length
  let fs1 := w.fs.write currPath (srcContent.take n)
  if n ≠ srcContent.length then
    (⟨fs1.removeFile currPath, w.stdin, w.log⟩, .err .invalidData)
  else
    match logAction logMsg ts logOk w.log with
    | (log2, .ok) => (⟨fs1.rename currPath dst, w.stdin, log2⟩, .ok)
    | (log2, .err e) => (⟨fs1.rename currPath dst, w.stdin, log2⟩, .err e)

/-- Mirrors `backupFile` (main.rs lines 26-89): validate, require existence and
the size bound, confirm an overwrite of an existing `<filename>.bak` (any
answer other than case-insensitive "yes" cancels with success), then run the
replace protocol onto `<filename>.bak`. -/
def backupFile (filename : String) (copied : Nat → Nat) (logOk : Bool)
    (ts : String) (w : World) : World × OpRes :=
  if isValidFilename filename = false then (w, .err .invalidInput)
  else
    match w.fs.read filename with
    | none => (w, .err .notFound)
    | some content =>
      if MAX_FILE_SIZE < content.length then (w, .err .invalidInput)
      else
        let backupFilename := filename ++ ".bak"
        if w.fs.existsFile backupFilename then
          let confirm := (readLine w.stdin).1
          let w1 : World := ⟨w.fs, (readLine w.stdin).2, w.log⟩
          if toLower (trim confirm) ≠ "yes" then (w1, .ok)
          else copyThenRename content backupFilename copied
            ("Performed backup on " ++ filename) logOk ts w1
        else copyThenRename content backupFilename copied
          ("Performed backup on " ++ filename) logOk ts w

/-- Mirrors `restoreFile` (main.rs lines 91-160): validate, require
`<filename>.bak` to exist and satisfy the size bound, confirm an overwrite of
an existing `<filename>` (any answer other than case-insensitive "yes" cancels
with success), then run the replace protocol from the backup onto
`<filename>`. -/
def restoreFile (filename : String) (copied : Nat → Nat) (logOk : Bool)
    (ts : String) (w : World) : World × OpRes :=
  if isValidFilename filename = false then (w, .err .invalidInput)
  else
    let backupFileName := filename ++ ".bak"
    match w.fs.read backupFileName with
    | none => (w, .err .notFound)
    | some content =>
      if MAX_FILE_SIZE < content.length then (w, .err .invalidInput)
      else
        if w.fs.existsFile filename then
          let confirm := (readLine w.stdin).1
          let w1 : World := ⟨w.fs, (readLine w.stdin).2, w.log⟩
          if toLower (trim confirm) ≠ "yes" then (w1, .ok)
          else copyThenRename content filename copied
            ("Performed restore on " ++ filename) logOk ts w1
        else copyThenRename content filename copied
          ("Performed restore on " ++ filename) logOk ts w

/-- Mirrors `deleteFile` (main.rs lines 162-199): validate, require existence,
then require the confirmation line to trim to the exact literal "DELETE"; on
match remove the file and log (a log failure is only warned about), otherwise
fail with PermissionDenied. -/
def deleteFile (filename : String) (logOk : Bool) (ts : String)
    (w : World) : World × OpRes :=
  if isValidFilename filename = false then (w, .err .invalidInput)
  else if w.fs.existsFile filename = false then (w, .err .notFound)
  else
    let confirm := (readLine w.stdin).1
    let w1 : World := ⟨w.fs, (readLine w.stdin).2, w.log⟩
    if trim confirm = "DELETE" then
      match logAction ("Performed delete on " ++ filename) ts logOk w1.log with
      | (log2, _) => (⟨w1.fs.removeFile filename, w1.stdin, log2⟩, .ok)
    else (w1, .err .permissionDenied)

/-- Mirrors `main` (main.rs lines 219-263), abstracted over the interaction
state: read and trim the filename line, reject invalid names with exit code 1,
read and trim the command line, dispatch, and exit 1 on an unknown command or
an action error, 0 otherwise.  Returns the exit code and the final state. -/
def mainProg (copied : Nat → Nat) (logOk : Bool) (ts : String)
    (w : World) : Nat × World :=
  let filename := trim (readLine w.stdin).1
  let w1 : World := ⟨w.fs, (readLine w.stdin).2, w.log⟩
  if isValidFilename filename = false then (1, w1)
  else
    let command := trim (readLine w1.stdin).1
    let w2 : World := ⟨w1.fs, (readLine w1.stdin).2, w1.log⟩
    if command = "backup" then
      match backupFile filename copied logOk ts w2 with
      | (w3, .ok) => (0, w3)
      | (w3, .err _) => (1, w3)
    else if command = "restore" then
      match restoreFile filename copied logOk ts w2 with
      | (w3, .ok) => (0, w3)
      | (w3, .err _) => (1, w3)
    else if command = "delete" then
      match deleteFile filename logOk ts w2 with
      | (w3, .ok) => (0, w3)
      | (w3, .err _) => (1, w3)
    else (1, w2)

/-! ## Helper lemmas -/

/-- The alphabet named by the specification: upper-case letters, lower-case
letters, digits, underscore, hyphen, dot. -/
def specAlphabet : List Char :=
  "ABCDEFGHIJKLMNOPQRSTUVWXYZ".data ++ "abcdefghijklmnopqrstuvwxyz".data
    ++ "0123456789".data ++ ['_', '-', '.']

theorem mem_VALID_CHAR_iff (c : Char) :
    VALID_CHAR.data.contains c = true ↔ c ∈ specAlphabet := by
  have hperm : VALID_CHAR.data.Perm specAlphabet := by decide
  rw [List.elem_iff]
  exact hperm.mem_iff

theorem containsDotDot_iff (l : List Char) :
    containsDotDot l = true ↔ ∃ pre suf, l = pre ++ '.' :: '.' :: suf := by
  induction l with
  | nil => simp [containsDotDot]
  | cons c rest ih =>
    cases rest with
    | nil =>
      simp only [containsDotDot, Bool.false_eq_true, false_iff]
      rintro ⟨pre, suf, h⟩
      have := congrArg List.length h
      simp at this
      omega
    | cons c2 r =>
      simp only [containsDotDot, Bool.or_eq_true, Bool.and_eq_true, beq_iff_eq]
      constructor
      · rintro (⟨rfl, rfl⟩ | h)
        · exact ⟨[], r, rfl⟩
        · obtain ⟨pre, suf, hps⟩ := ih.mp h
          exact ⟨c :: pre, suf, by rw [List.cons_append, ← hps]⟩
      · rintro ⟨pre, suf, hps⟩
        cases pre with
        | nil =>
          simp only [List.nil_append, List.cons.injEq] at hps
          obtain ⟨rfl, rfl, rfl⟩ := hps
          exact Or.inl ⟨rfl, rfl⟩
        | cons p ps =>
          simp only [List.cons_append, List.cons.injEq] at hps
          exact Or.inr (ih.mpr ⟨ps, suf, hps.2⟩)

theorem utf8_eq_length (l : List Char) (h : ∀ c ∈ l, c.utf8Size = 1) :
    String.utf8ByteSize ⟨l⟩ = l.length := by
  induction l with
  | nil => rfl
  | cons c rest ih =>
    have hc : c.utf8Size = 1 := h c (by simp)
    have := ih (fun x hx => h x (by simp [hx]))
    simp [String.utf8ByteSize, String.utf8ByteSize.go] at this ⊢
    omega

theorem specAlphabet_utf8Size (c : Char) (h : c ∈ specAlphabet) : c.utf8Size = 1 := by
  fin_cases h <;> rfl

theorem ne_of_length_ne (a b : String) (h : a.length ≠ b.length) : a ≠ b :=
  fun hh => h (congrArg String.length hh)

theorem append_ne_self (f s : String) (h : 0 < s.length) : f ++ s ≠ f := by
  apply ne_of_length_ne
  rw [String.length_append]
  omega

theorem append_right_ne (f : String) (s t : String) (h : s.data ≠ t.data) :
    f ++ s ≠ f ++ t := by
  intro hh
  have := congrArg String.data hh
  rw [String.data_append, String.data_append] at this
  exact h (List.append_cancel_left this)

theorem find?_filter_out (l : List (String × List Nat)) (n m : String) (h : m ≠ n) :
    ((l.filter fun p => !(p.1 == n)).find? fun p => p.1 == m)
      = l.find? fun p => p.1 == m := by
  induction l with
  | nil => rfl
  | cons a l ih =>
    rw [List.filter_cons, List.find?_cons]
    by_cases ha : a.1 = n
    · have hm : (a.1 == m) = false := beq_eq_false_iff_ne.mpr (fun hh => h (hh ▸ ha))
      rw [if_neg (by simp [ha]), hm, ih]
    · rw [if_pos (by simp [ha]), List.find?_cons]
      cases hx : (a.1 == m) with
      | true => rfl
      | false => exact ih

theorem FS.read_write_self (fs : FS) (n : String) (c : List Nat) :
    (fs.write n c).read n = some c := by
  simp [FS.read, FS.write, List.find?_cons]

theorem FS.read_write_ne (fs : FS) (n m : String) (c : List Nat) (h : m ≠ n) :
    (fs.write n c).read m = fs.read m := by
  have hnm : ((n, c).1 == m) = false := by
    simp only [beq_eq_false_iff_ne]
    exact fun hh => h hh.symm
  simp only [FS.read, FS.write, List.find?_cons, hnm]
  rw [find?_filter_out fs.files n m h]

theorem FS.read_removeFile_self (fs : FS) (n : String) :
    (fs.removeFile n).read n = none := by
  have hfind : (fs.files.filter fun p => !(p.1 == n)).find? (fun p => p.1 == n) = none := by
    rw [List.find?_eq_none]
    intro x hx
    have hx2 := (List.mem_filter.mp hx).2
    simp only [Bool.not_eq_true', beq_eq_false_iff_ne] at hx2
    simp [hx2]
  simp [FS.read, FS.removeFile, hfind]

theorem FS.read_removeFile_ne (fs : FS) (n m : String) (h : m ≠ n) :
    (fs.removeFile n).read m = fs.read m := by
  simp only [FS.read, FS.removeFile]
  rw [find?_filter_out fs.files n m h]

theorem FS.write_removeFile_self (fs : FS) (n : String) (c : List Nat) :
    (fs.write n c).removeFile n = fs.removeFile n := by
  simp [FS.write, FS.removeFile, List.filter_cons, List.filter_filter]

theorem FS.rename_read_dst (fs : FS) (src dst : String) (c : List Nat)
    (h : fs.read src = some c) :
    (fs.rename src dst).read dst = some c := by
  simp [FS.rename, h, FS.read_write_self]

theorem FS.rename_read_other (fs : FS) (src dst m : String) (c : List Nat)
    (h : fs.read src = some c) (hm1 : m ≠ src) (hm2 : m ≠ dst) :
    (fs.rename src dst).read m = fs.read m := by
  simp only [FS.rename, h]
  rw [FS.read_write_ne _ _ _ _ hm2, FS.read_removeFile_ne _ _ _ hm1]

theorem FS.exists_of_read (fs : FS) (n : String) (c : List Nat)
    (h : fs.read n = some c) : fs.existsFile n = true := by
  simp [FS.existsFile, h]

theorem copyThenRename_short_eq (srcContent : List Nat) (dst : String)
    (copied : Nat → Nat) (logMsg : String) (logOk : Bool) (ts : String) (w : World)
    (hn : copied srcContent.length ≠ srcContent.length) :
    copyThenRename srcContent dst copied logMsg logOk ts w
      = (⟨w.fs.removeFile (dst ++ ".tmp"), w.stdin, w.log⟩, .err .invalidData) := by
  simp only [copyThenRename]
  rw [if_pos hn, FS.write_removeFile_self]

theorem copyThenRename_full_eq (srcContent : List Nat) (dst : String)
    (copied : Nat → Nat) (logMsg : String) (ts : String) (w : World)
    (hn : copied srcContent.length = srcContent.length) :
    copyThenRename srcContent dst copied logMsg true ts w
      = (⟨(w.fs.write (dst ++ ".tmp") srcContent).rename (dst ++ ".tmp") dst, w.stdin,
          w.log ++ ["[" ++ ts ++ "] " ++ sanitize logMsg]⟩, .ok) := by
  simp only [copyThenRename, logAction, if_true]
  rw [if_neg (by simp [hn]), hn, List.take_length]

theorem copyThenRename_logfail_eq (srcContent : List Nat) (dst : String)
    (copied : Nat → Nat) (logMsg : String) (ts : String) (w : World)
    (hn : copied srcContent.length = srcContent.length) :
    copyThenRename srcContent dst copied logMsg false ts w
      = (⟨(w.fs.write (dst ++ ".tmp") srcContent).rename (dst ++ ".tmp") dst, w.stdin,
          w.log⟩, .err .other) := by
  simp only [copyThenRename, logAction]
  rw [if_neg (by simp [hn]), hn, List.take_length]
  simp

theorem copyThenRename_ok_inv (srcContent : List Nat) (dst : String)
    (copied : Nat → Nat) (logMsg : String) (logOk : Bool) (ts : String) (w : World)
    (hok : (copyThenRename srcContent dst copied logMsg logOk ts w).2 = .ok) :
    copied srcContent.length = srcContent.length ∧ logOk = true := by
  by_cases hn : copied srcContent.length = srcContent.length
  · cases logOk with
    | true => exact ⟨hn, rfl⟩
    | false =>
      rw [copyThenRename_logfail_eq srcContent dst copied logMsg ts w hn] at hok
      exact absurd hok (by simp)
  · rw [copyThenRename_short_eq srcContent dst copied logMsg logOk ts w hn] at hok
    exact absurd hok (by simp)

/-! Shape lemmas: each control path of the three actions, as an equation. -/

theorem backupFile_nobak_eq (filename : String) (c : List Nat) (copied : Nat → Nat)
    (logOk : Bool) (ts : String) (w : World)
    (hvalid : isValidFilename filename = true)
    (hread : w.fs.read filename = some c)
    (hsize : ¬ MAX_FILE_SIZE < c.length)
    (hnobak : w.fs.existsFile (filename ++ ".bak") = false) :
    backupFile filename copied logOk ts w
      = copyThenRename c (filename ++ ".bak") copied ("Performed backup on " ++ filename)
          logOk ts w := by
  simp only [backupFile, hvalid, hread, hnobak]
  rw [if_neg (by simp), if_neg hsize, if_neg (by simp)]

theorem backupFile_confirm_eq (filename : String) (c : List Nat) (copied : Nat → Nat)
    (logOk : Bool) (ts : String) (w : World)
    (hvalid : isValidFilename filename = true)
    (hread : w.fs.read filename = some c)
    (hsize : ¬ MAX_FILE_SIZE < c.length)
    (hbak : w.fs.existsFile (filename ++ ".bak") = true)
    (hyes : toLower (trim (readLine w.stdin).1) = "yes") :
    backupFile filename copied logOk ts w
      = copyThenRename c (filename ++ ".bak") copied ("Performed backup on " ++ filename)
          logOk ts ⟨w.fs, (readLine w.stdin).2, w.log⟩ := by
  simp only [backupFile, hvalid, hread, hbak]
  rw [if_neg (by simp), if_neg hsize, if_pos (by simp), if_neg (by simp [hyes])]

theorem backupFile_cancel_eq (filename : String) (c : List Nat) (copied : Nat → Nat)
    (logOk : Bool) (ts : String) (w : World)
    (hvalid : isValidFilename filename = true)
    (hread : w.fs.read filename = some c)
    (hsize : ¬ MAX_FILE_SIZE < c.length)
    (hbak : w.fs.existsFile (filename ++ ".bak") = true)
    (hno : toLower (trim (readLine w.stdin).1) ≠ "yes") :
    backupFile filename copied logOk ts w
      = (⟨w.fs, (readLine w.stdin).2, w.log⟩, .ok) := by
  simp only [backupFile, hvalid, hread, hbak]
  rw [if_neg (by simp), if_neg hsize, if_pos (by simp), if_pos hno]

theorem restoreFile_notarget_eq (filename : String) (c : List Nat) (copied : Nat → Nat)
    (logOk : Bool) (ts : String) (w : World)
    (hvalid : isValidFilename filename = true)
    (hread : w.fs.read (filename ++ ".bak") = some c)
    (hsize : ¬ MAX_FILE_SIZE < c.length)
    (hnotarget : w.fs.existsFile filename = false) :
    restoreFile filename copied logOk ts w
      = copyThenRename c filename copied ("Performed restore on " ++ filename)
          logOk ts w := by
  simp only [restoreFile, hvalid, hread, hnotarget]
  rw [if_neg (by simp), if_neg hsize, if_neg (by simp)]

theorem restoreFile_confirm_eq (filename : String) (c : List Nat) (copied : Nat → Nat)
    (logOk : Bool) (ts : String) (w : World)
    (hvalid : isValidFilename filename = true)
    (hread : w.fs.read (filename ++ ".bak") = some c)
    (hsize : ¬ MAX_FILE_SIZE < c.length)
    (htarget : w.fs.existsFile filename = true)
    (hyes : toLower (trim (readLine w.stdin).1) = "yes") :
    restoreFile filename copied logOk ts w
      = copyThenRename c filename copied ("Performed restore on " ++ filename)
          logOk ts ⟨w.fs, (readLine w.stdin).2, w.log⟩ := by
  simp only [restoreFile, hvalid, hread, htarget]
  rw [if_neg (by simp), if_neg hsize, if_pos (by simp), if_neg (by simp [hyes])]

theorem restoreFile_cancel_eq (filename : String) (c : List Nat) (copied : Nat → Nat)
    (logOk : Bool) (ts : String) (w : World)
    (hvalid : isValidFilename filename = true)
    (hread : w.fs.read (filename ++ ".bak") = some c)
    (hsize : ¬ MAX_FILE_SIZE < c.length)
    (htarget : w.fs.existsFile filename = true)
    (hno : toLower (trim (readLine w.stdin).1) ≠ "yes") :
    restoreFile filename copied logOk ts w
      = (⟨w.fs, (readLine w.stdin).2, w.log⟩, .ok) := by
  simp only [restoreFile, hvalid, hread, htarget]
  rw [if_neg (by simp), if_neg hsize, if_pos (by simp), if_pos hno]

theorem deleteFile_confirm_eq (filename : String) (logOk : Bool) (ts : String) (w : World)
    (hvalid : isValidFilename filename = true)
    (hex : w.fs.existsFile filename = true)
    (hdel : trim (readLine w.stdin).1 = "DELETE") :
    deleteFile filename logOk ts w
      = (⟨w.fs.removeFile filename, (readLine w.stdin).2,
          (logAction ("Performed delete on " ++ filename) ts logOk w.log).1⟩, .ok) := by
  simp only [deleteFile, hvalid, hex]
  rw [if_neg (by simp), if_neg (by simp), if_pos hdel]

theorem deleteFile_cancel_eq (filename : String) (logOk : Bool) (ts : String) (w : World)
    (hvalid : isValidFilename filename = true)
    (hex : w.fs.existsFile filename = true)
    (hno : trim (readLine w.stdin).1 ≠ "DELETE") :
    deleteFile filename logOk ts w
      = (⟨w.fs, (readLine w.stdin).2, w.log⟩, .err .permissionDenied) := by
  simp only [deleteFile, hvalid, hex]
  rw [if_neg (by simp), if_neg (by simp), if_neg hno]

/-! ## Claim theorems -/

/-- C2: for every string s, `isValidFilename s` returns true if and only if s
is non-empty, has length at most 255, contains none of the two-character
sequence "..", the character '/', or the character '\', and every character of
s is drawn from the alphabet of ASCII letters, digits, underscore, hyphen and
dot. -/
theorem isValidFilename_iff (s : String) :
    isValidFilename s = true ↔
      s.data ≠ [] ∧ s.data.length ≤ 255 ∧
      (¬ ∃ pre suf, s.data = pre ++ '.' :: '.' :: suf) ∧
      '/' ∉ s.data ∧ '\\' ∉ s.data ∧ (∀ c ∈ s.data, c ∈ specAlphabet) := by
  unfold isValidFilename
  constructor
  · intro h
    split at h
    · exact absurd h (by simp)
    · split at h
      · exact absurd h (by simp)
      · rename_i hc1 hc2
        simp only [Bool.or_eq_true, not_or, List.isEmpty_eq_true, decide_eq_true_eq,
          not_lt] at hc1 hc2
        obtain ⟨hne, hlen⟩ := hc1
        rw [List.all_eq_true] at h
        have halpha : ∀ c ∈ s.data, c ∈ specAlphabet := fun c hc =>
          (mem_VALID_CHAR_iff c).mp (h c hc)
        have hsz : String.utf8ByteSize ⟨s.data⟩ = s.data.length :=
          utf8_eq_length s.data (fun c hc => specAlphabet_utf8Size c (halpha c hc))
        have hsz2 : s.utf8ByteSize = s.data.length := hsz
        refine ⟨hne, by rw [← hsz2]; exact hlen, ?_, ?_, ?_, halpha⟩
        · intro hex
          have := (containsDotDot_iff s.data).mpr hex
          simp [this] at hc2
        · intro hmem
          have hx : s.data.contains '/' = true := List.elem_iff.mpr hmem
          simp [hx] at hc2
          exact hc2.1.2 hmem
        · intro hmem
          have hx : s.data.contains '\\' = true := List.elem_iff.mpr hmem
          simp [hx] at hc2
          exact hc2.2 hmem
  · rintro ⟨hne, hlen, hdd, hs, hb, halpha⟩
    have hsz : String.utf8ByteSize ⟨s.data⟩ = s.data.length :=
      utf8_eq_length s.data (fun c hc => specAlphabet_utf8Size c (halpha c hc))
    have hsz2 : s.utf8ByteSize = s.data.length := hsz
    rw [if_neg, if_neg]
    · rw [List.all_eq_true]
      exact fun c hc => (mem_VALID_CHAR_iff c).mpr (halpha c hc)
    · simp only [Bool.or_eq_true, not_or]
      exact ⟨⟨fun hx => hdd ((containsDotDot_iff s.data).mp hx),
        fun hx => hs (List.elem_iff.mp hx)⟩,
        fun hx => hb (List.elem_iff.mp hx)⟩
    · simp only [Bool.or_eq_true, not_or, List.isEmpty_eq_true, decide_eq_true_eq, not_lt]
      exact ⟨hne, by rw [hsz2]; exact hlen⟩

/-- C10: the validator accepts the single-dot name "." (and similar names such
as ".x"), so each of the three operations on "." gets past the filename gate
and reaches the filesystem stage (here: it fails with NotFound on an empty
filesystem rather than with the validation error InvalidInput). -/
theorem validator_accepts_dot :
    isValidFilename "." = true ∧ isValidFilename ".x" = true ∧
    (∀ copied logOk ts,
      backupFile "." copied logOk ts ⟨⟨[]⟩, [], []⟩ = (⟨⟨[]⟩, [], []⟩, .err .notFound)
      ∧ restoreFile "." copied logOk ts ⟨⟨[]⟩, [], []⟩ = (⟨⟨[]⟩, [], []⟩, .err .notFound)
      ∧ deleteFile "." logOk ts ⟨⟨[]⟩, [], []⟩ = (⟨⟨[]⟩, [], []⟩, .err .notFound)) :=
  ⟨by decide, by decide, fun copied logOk ts => ⟨rfl, rfl, rfl⟩⟩

/-- C8: `logAction` (with a succeeding log write) appends exactly one line of
the form "[timestamp] sanitized-message" to the existing log contents, where
the sanitised message is the message with every newline and carriage return
replaced by a space; in particular the sanitised message contains no newline
and no carriage return, and the previous log lines are preserved unchanged
(append mode, never truncated). -/
theorem logAction_appends_one_line (action ts : String) (log : List String) :
    logAction action ts true log
      = (log ++ ["[" ++ ts ++ "] " ++ sanitize action], .ok)
    ∧ (sanitize action).data
        = action.data.map (fun c => if c = '\n' ∨ c = '\r' then ' ' else c)
    ∧ '\n' ∉ (sanitize action).data ∧ '\r' ∉ (sanitize action).data := by
  have hmap : (sanitize action).data
      = action.data.map (fun c => if c = '\n' ∨ c = '\r' then ' ' else c) := by
    show ((action.data.map fun c => if c = '\n' then ' ' else c).map
      fun c => if c = '\r' then ' ' else c) = _
    rw [List.map_map]
    refine List.map_congr_left (fun c _ => ?_)
    by_cases h1 : c = '\n' <;> by_cases h2 : c = '\r' <;> simp [h1, h2, Function.comp]
  refine ⟨rfl, hmap, ?_, ?_⟩
  · rw [hmap]
    intro hmem
    obtain ⟨a, _, ha⟩ := List.mem_map.mp hmem
    by_cases h : a = '\n' ∨ a = '\r' <;> simp [h] at ha
    exact absurd (ha ▸ h) (by simp)
  · rw [hmap]
    intro hmem
    obtain ⟨a, _, ha⟩ := List.mem_map.mp hmem
    by_cases h : a = '\n' ∨ a = '\r' <;> simp [h] at ha
    exact absurd (ha ▸ h) (by simp)

/-- C4 counterexample: the stdin line " DELETE" differs from the literal
string "DELETE", yet delete of an existing valid file proceeds: the code
trims the confirmation before comparing, so the claim as stated (only the
exact literal input causes removal) fails on whitespace-padded input. -/
theorem delete_confirmation_counterexample :
    (" DELETE" : String) ≠ "DELETE"
    ∧ (deleteFile "f" true "T" ⟨⟨[("f", [1])]⟩, [" DELETE"], []⟩).2 = .ok
    ∧ (deleteFile "f" true "T" ⟨⟨[("f", [1])]⟩, [" DELETE"], []⟩).1.fs.read "f"
        = none := by
  refine ⟨by decide, by decide, by decide⟩

/-- C4 (amended): for delete of an existing valid filename, exactly the
confirmation inputs whose whitespace-trimmed content equals the literal
"DELETE" (case-sensitive) cause the file to be removed with success; every
other confirmation input leaves the filesystem unchanged and returns the
PermissionDenied error. -/
theorem delete_confirmation (filename : String) (logOk : Bool) (ts : String)
    (w : World)
    (hvalid : isValidFilename filename = true)
    (hex : w.fs.existsFile filename = true) :
    (trim (readLine w.stdin).1 = "DELETE" →
      (deleteFile filename logOk ts w).1.fs.read filename = none
      ∧ (deleteFile filename logOk ts w).2 = .ok)
    ∧ (trim (readLine w.stdin).1 ≠ "DELETE" →
      (deleteFile filename logOk ts w).1.fs = w.fs
      ∧ (deleteFile filename logOk ts w).2 = .err .permissionDenied) := by
  constructor
  · intro hdel
    rw [deleteFile_confirm_eq filename logOk ts w hvalid hex hdel]
    exact ⟨FS.read_removeFile_self w.fs filename, rfl⟩
  · intro hno
    rw [deleteFile_cancel_eq filename logOk ts w hvalid hex hno]
    exact ⟨rfl, rfl⟩

/-- C4 witness: a concrete lower-case "delete" confirmation is refused and
leaves the file in place. -/
theorem delete_confirmation_witness :
    (deleteFile "f" true "T" ⟨⟨[("f", [1])]⟩, ["delete"], []⟩).1.fs = ⟨[("f", [1])]⟩
    ∧ (deleteFile "f" true "T" ⟨⟨[("f", [1])]⟩, ["delete"], []⟩).2
        = .err .permissionDenied :=
  (delete_confirmation "f" true "T" ⟨⟨[("f", [1])]⟩, ["delete"], []⟩
    (by decide) (by decide)).2 (by decide)

/-- C7: when the source file is larger than the 10 MiB limit, backup fails
with the InvalidInput (oversized file) error and leaves the whole world —
filesystem, pending input and audit log — untouched; in particular no
`<filename>.bak` is created or modified. -/
theorem backup_oversized_rejected (filename : String) (c : List Nat)
    (copied : Nat → Nat) (logOk : Bool) (ts : String) (w : World)
    (hvalid : isValidFilename filename = true)
    (hread : w.fs.read filename = some c)
    (hbig : MAX_FILE_SIZE < c.length) :
    backupFile filename copied logOk ts w = (w, .err .invalidInput) := by
  simp only [backupFile, hvalid, hread]
  rw [if_neg (by simp), if_pos hbig]

/-- C7 witness: a concrete 10 MiB + 1 byte file is rejected without touching
the world. -/
theorem backup_oversized_rejected_witness :
    backupFile "big" id true "T" ⟨⟨[("big", List.replicate 10485761 0)]⟩, [], []⟩
      = (⟨⟨[("big", List.replicate 10485761 0)]⟩, [], []⟩, .err .invalidInput) :=
  backup_oversized_rejected "big" (List.replicate 10485761 0) id true "T"
    ⟨⟨[("big", List.replicate 10485761 0)]⟩, [], []⟩
    (by decide)
    (FS.read_write_self ⟨[]⟩ "big" (List.replicate 10485761 0))
    (by rw [List.length_replicate]; norm_num [MAX_FILE_SIZE])

/-- C5 counterexample: the confirmation answer " yes " differs from "yes"
under case-insensitive comparison alone (no trimming), yet backup with an
existing `notes.txt.bak` proceeds on it: the code lowercases the *trimmed*
answer (`confirm.trim().to_lowercase() == "yes"`, main.rs line 58), so it
performs the copy, overwrites the existing destination with the source bytes
and appends an audit-log line — the claim as stated (success without effect on
every non-"yes" answer) fails at this input. -/
theorem decline_overwrite_counterexample :
    toLower " yes " ≠ "yes"
    ∧ (backupFile "notes.txt" id true "T"
        ⟨⟨[("notes.txt", [104]), ("notes.txt.bak", [55])]⟩, [" yes "], []⟩).2 = .ok
    ∧ (backupFile "notes.txt" id true "T"
        ⟨⟨[("notes.txt", [104]), ("notes.txt.bak", [55])]⟩, [" yes "], []⟩).1.fs.read
          "notes.txt.bak" = some [104]
    ∧ (backupFile "notes.txt" id true "T"
        ⟨⟨[("notes.txt", [104]), ("notes.txt.bak", [55])]⟩, [" yes "], []⟩).1.log
        = ["[T] Performed backup on notes.txt"] := by
  refine ⟨by decide, by decide, by decide, by decide⟩

/-- C5 (amended): when the overwrite prompt fires (backup: `<filename>.bak`
already exists; restore: `<filename>` already exists) and the confirmation
answer's whitespace-trimmed content does not equal "yes" case-insensitively,
the operation consumes the answer line, returns success, performs no copy,
and leaves the filesystem (in particular the existing destination) and the
audit log unchanged. -/
theorem decline_overwrite_noop (filename : String) (cb cr : List Nat)
    (copied copied2 : Nat → Nat) (logOk logOk2 : Bool) (ts ts2 : String)
    (wb wr : World)
    (hvalid : isValidFilename filename = true)
    (hreadb : wb.fs.read filename = some cb)
    (hsizeb : ¬ MAX_FILE_SIZE < cb.length)
    (hbak : wb.fs.existsFile (filename ++ ".bak") = true)
    (hnob : toLower (trim (readLine wb.stdin).1) ≠ "yes")
    (hreadr : wr.fs.read (filename ++ ".bak") = some cr)
    (hsizer : ¬ MAX_FILE_SIZE < cr.length)
    (htgt : wr.fs.existsFile filename = true)
    (hnor : toLower (trim (readLine wr.stdin).1) ≠ "yes") :
    backupFile filename copied logOk ts wb
      = (⟨wb.fs, (readLine wb.stdin).2, wb.log⟩, .ok)
    ∧ restoreFile filename copied2 logOk2 ts2 wr
      = (⟨wr.fs, (readLine wr.stdin).2, wr.log⟩, .ok) :=
  ⟨backupFile_cancel_eq filename cb copied logOk ts wb hvalid hreadb hsizeb hbak hnob,
   restoreFile_cancel_eq filename cr copied2 logOk2 ts2 wr hvalid hreadr hsizer htgt hnor⟩

/-- C5 witness: with `notes.txt` and `notes.txt.bak` both present and the
answer "no", both backup and restore succeed without changing anything but the
consumed input line. -/
theorem decline_overwrite_noop_witness :
    backupFile "notes.txt" id true "T"
        ⟨⟨[("notes.txt", [104]), ("notes.txt.bak", [55])]⟩, ["no"], ["old line"]⟩
      = (⟨⟨[("notes.txt", [104]), ("notes.txt.bak", [55])]⟩, [], ["old line"]⟩, .ok)
    ∧ restoreFile "notes.txt" id true "T"
        ⟨⟨[("notes.txt", [104]), ("notes.txt.bak", [55])]⟩, ["no"], ["old line"]⟩
      = (⟨⟨[("notes.txt", [104]), ("notes.txt.bak", [55])]⟩, [], ["old line"]⟩, .ok) :=
  decline_overwrite_noop "notes.txt" [104] [55] id id true true "T" "T"
    ⟨⟨[("notes.txt", [104]), ("notes.txt.bak", [55])]⟩, ["no"], ["old line"]⟩
    ⟨⟨[("notes.txt", [104]), ("notes.txt.bak", [55])]⟩, ["no"], ["old line"]⟩
    (by decide) (by decide) (by decide) (by decide) (by decide)
    (by decide) (by decide) (by decide) (by decide)

/-- C9: when the audit-log write fails after the file operation itself has
succeeded, backup and restore surface the failure as an error to their caller
(while the new backup / restored file is already in place and the log is
unchanged), but delete still returns success: the file is removed and the
logging failure is only warned about. -/
theorem log_failure_policy (filename : String) (cb cr cd : List Nat)
    (copied copied2 : Nat → Nat) (ts ts2 ts3 : String) (wb wr wd : World)
    (hvalid : isValidFilename filename = true)
    (hreadb : wb.fs.read filename = some cb)
    (hsizeb : ¬ MAX_FILE_SIZE < cb.length)
    (hnobak : wb.fs.existsFile (filename ++ ".bak") = false)
    (hfullb : copied cb.length = cb.length)
    (hreadr : wr.fs.read (filename ++ ".bak") = some cr)
    (hsizer : ¬ MAX_FILE_SIZE < cr.length)
    (hnotgt : wr.fs.existsFile filename = false)
    (hfullr : copied2 cr.length = cr.length)
    (hreadd : wd.fs.read filename = some cd)
    (hdel : trim (readLine wd.stdin).1 = "DELETE") :
    ((backupFile filename copied false ts wb).2 = .err .other
      ∧ (backupFile filename copied false ts wb).1.fs.read (filename ++ ".bak") = some cb
      ∧ (backupFile filename copied false ts wb).1.log = wb.log)
    ∧ ((restoreFile filename copied2 false ts2 wr).2 = .err .other
      ∧ (restoreFile filename copied2 false ts2 wr).1.fs.read filename = some cr
      ∧ (restoreFile filename copied2 false ts2 wr).1.log = wr.log)
    ∧ ((deleteFile filename false ts3 wd).2 = .ok
      ∧ (deleteFile filename false ts3 wd).1.fs.read filename = none
      ∧ (deleteFile filename false ts3 wd).1.log = wd.log) := by
  refine ⟨?_, ?_, ?_⟩
  · rw [backupFile_nobak_eq filename cb copied false ts wb hvalid hreadb hsizeb hnobak,
      copyThenRename_logfail_eq cb (filename ++ ".bak") copied _ ts wb hfullb]
    exact ⟨rfl,
      FS.rename_read_dst _ _ _ cb (FS.read_write_self wb.fs _ cb), rfl⟩
  · rw [restoreFile_notarget_eq filename cr copied2 false ts2 wr hvalid hreadr hsizer hnotgt,
      copyThenRename_logfail_eq cr filename copied2 _ ts2 wr hfullr]
    exact ⟨rfl,
      FS.rename_read_dst _ _ _ cr (FS.read_write_self wr.fs _ cr), rfl⟩
  · rw [deleteFile_confirm_eq filename false ts3 wd hvalid
      (FS.exists_of_read wd.fs filename cd hreadd) hdel]
    exact ⟨rfl, FS.read_removeFile_self wd.fs filename, by simp [logAction]⟩

/-- C9 witness: concrete log-failure runs of all three actions. -/
theorem log_failure_policy_witness :
    ((backupFile "f" id false "T" ⟨⟨[("f", [1])]⟩, [], ["L"]⟩).2 = .err .other
      ∧ (backupFile "f" id false "T" ⟨⟨[("f", [1])]⟩, [], ["L"]⟩).1.fs.read ("f" ++ ".bak")
          = some [1]
      ∧ (backupFile "f" id false "T" ⟨⟨[("f", [1])]⟩, [], ["L"]⟩).1.log = ["L"])
    ∧ ((restoreFile "f" id false "T" ⟨⟨[("f.bak", [2])]⟩, [], ["L"]⟩).2 = .err .other
      ∧ (restoreFile "f" id false "T" ⟨⟨[("f.bak", [2])]⟩, [], ["L"]⟩).1.fs.read "f"
          = some [2]
      ∧ (restoreFile "f" id false "T" ⟨⟨[("f.bak", [2])]⟩, [], ["L"]⟩).1.log = ["L"])
    ∧ ((deleteFile "f" false "T" ⟨⟨[("f", [3])]⟩, ["DELETE"], ["L"]⟩).2 = .ok
      ∧ (deleteFile "f" false "T" ⟨⟨[("f", [3])]⟩, ["DELETE"], ["L"]⟩).1.fs.read "f" = none
      ∧ (deleteFile "f" false "T" ⟨⟨[("f", [3])]⟩, ["DELETE"], ["L"]⟩).1.log = ["L"]) :=
  log_failure_policy "f" [1] [2] [3] id id "T" "T" "T"
    ⟨⟨[("f", [1])]⟩, [], ["L"]⟩ ⟨⟨[("f.bak", [2])]⟩, [], ["L"]⟩
    ⟨⟨[("f", [3])]⟩, ["DELETE"], ["L"]⟩
    (by decide) (by decide) (by decide) (by decide) rfl
    (by decide) (by decide) (by decide) rfl
    (by decide) (by decide)

theorem append2_ne_self (f s t : String) (h : 0 < s.length + t.length) :
    (f ++ s) ++ t ≠ f := by
  apply ne_of_length_ne
  rw [String.length_append, String.length_append]
  omega

theorem backupFile_runs_copy (filename : String) (c : List Nat) (copied : Nat → Nat)
    (logOk : Bool) (ts : String) (w : World)
    (hvalid : isValidFilename filename = true)
    (hread : w.fs.read filename = some c)
    (hsize : ¬ MAX_FILE_SIZE < c.length)
    (hnc : w.fs.existsFile (filename ++ ".bak") = false
        ∨ toLower (trim (readLine w.stdin).1) = "yes") :
    ∃ stdin2, backupFile filename copied logOk ts w
      = copyThenRename c (filename ++ ".bak") copied
          ("Performed backup on " ++ filename) logOk ts ⟨w.fs, stdin2, w.log⟩ := by
  cases hb : w.fs.existsFile (filename ++ ".bak") with
  | false =>
    exact ⟨w.stdin, backupFile_nobak_eq filename c copied logOk ts w hvalid hread hsize hb⟩
  | true =>
    have hyes : toLower (trim (readLine w.stdin).1) = "yes" := by
      rcases hnc with h | h
      · rw [h] at hb
        exact absurd hb (by simp)
      · exact h
    exact ⟨(readLine w.stdin).2,
      backupFile_confirm_eq filename c copied logOk ts w hvalid hread hsize hb hyes⟩

theorem restoreFile_runs_copy (filename : String) (c : List Nat) (copied : Nat → Nat)
    (logOk : Bool) (ts : String) (w : World)
    (hvalid : isValidFilename filename = true)
    (hread : w.fs.read (filename ++ ".bak") = some c)
    (hsize : ¬ MAX_FILE_SIZE < c.length)
    (hnc : w.fs.existsFile filename = false
        ∨ toLower (trim (readLine w.stdin).1) = "yes") :
    ∃ stdin2, restoreFile filename copied logOk ts w
      = copyThenRename c filename copied
          ("Performed restore on " ++ filename) logOk ts ⟨w.fs, stdin2, w.log⟩ := by
  cases hb : w.fs.existsFile filename with
  | false =>
    exact ⟨w.stdin, restoreFile_notarget_eq filename c copied logOk ts w hvalid hread hsize hb⟩
  | true =>
    have hyes : toLower (trim (readLine w.stdin).1) = "yes" := by
      rcases hnc with h | h
      · rw [h] at hb
        exact absurd hb (by simp)
      · exact h
    exact ⟨(readLine w.stdin).2,
      restoreFile_confirm_eq filename c copied logOk ts w hvalid hread hsize hb hyes⟩

/-- C3: when the stream copy reports a byte count different from the source's
size, backup and restore fail with the InvalidData (incomplete-copy) error,
the temporary staging file `<destination>.tmp` does not exist afterwards, and
every file other than that temp name — in particular the pre-existing
destination, `<filename>.bak` for backup and `<filename>` for restore — is
exactly as before, because the rename onto the destination happens only on
success. -/
theorem short_copy_cleanup (filename : String) (cb cr : List Nat)
    (copied copied2 : Nat → Nat) (logOk logOk2 : Bool) (ts ts2 : String)
    (wb wr : World)
    (hvalid : isValidFilename filename = true)
    (hreadb : wb.fs.read filename = some cb)
    (hsizeb : ¬ MAX_FILE_SIZE < cb.length)
    (hncb : wb.fs.existsFile (filename ++ ".bak") = false
        ∨ toLower (trim (readLine wb.stdin).1) = "yes")
    (hshortb : copied cb.length ≠ cb.length)
    (hreadr : wr.fs.read (filename ++ ".bak") = some cr)
    (hsizer : ¬ MAX_FILE_SIZE < cr.length)
    (hncr : wr.fs.existsFile filename = false
        ∨ toLower (trim (readLine wr.stdin).1) = "yes")
    (hshortr : copied2 cr.length ≠ cr.length) :
    ((backupFile filename copied logOk ts wb).2 = .err .invalidData
      ∧ (backupFile filename copied logOk ts wb).1.fs.existsFile
          (filename ++ ".bak" ++ ".tmp") = false
      ∧ ∀ m, m ≠ filename ++ ".bak" ++ ".tmp" →
          (backupFile filename copied logOk ts wb).1.fs.read m = wb.fs.read m)
    ∧ ((restoreFile filename copied2 logOk2 ts2 wr).2 = .err .invalidData
      ∧ (restoreFile filename copied2 logOk2 ts2 wr).1.fs.existsFile
          (filename ++ ".tmp") = false
      ∧ ∀ m, m ≠ filename ++ ".tmp" →
          (restoreFile filename copied2 logOk2 ts2 wr).1.fs.read m = wr.fs.read m) := by
  constructor
  · obtain ⟨stdin2, heq⟩ :=
      backupFile_runs_copy filename cb copied logOk ts wb hvalid hreadb hsizeb hncb
    rw [heq, copyThenRename_short_eq cb (filename ++ ".bak") copied _ logOk ts _ hshortb]
    refine ⟨rfl, ?_, ?_⟩
    · simp [FS.existsFile, FS.read_removeFile_self]
    · intro m hm
      exact FS.read_removeFile_ne wb.fs _ m hm
  · obtain ⟨stdin2, heq⟩ :=
      restoreFile_runs_copy filename cr copied2 logOk2 ts2 wr hvalid hreadr hsizer hncr
    rw [heq, copyThenRename_short_eq cr filename copied2 _ logOk2 ts2 _ hshortr]
    refine ⟨rfl, ?_, ?_⟩
    · simp [FS.existsFile, FS.read_removeFile_self]
    · intro m hm
      exact FS.read_removeFile_ne wr.fs _ m hm

/-- C3 witness: a copy that writes 0 of 2 bytes makes backup and restore fail
with InvalidData, the temp names are absent, and the pre-existing destination
and source files are untouched. -/
theorem short_copy_cleanup_witness :
    ((backupFile "f" (fun _ => 0) true "T"
        ⟨⟨[("f", [1, 2]), ("f.bak", [9])]⟩, ["yes"], []⟩).2 = .err .invalidData
      ∧ (backupFile "f" (fun _ => 0) true "T"
          ⟨⟨[("f", [1, 2]), ("f.bak", [9])]⟩, ["yes"], []⟩).1.fs.existsFile
            ("f" ++ ".bak" ++ ".tmp") = false
      ∧ (backupFile "f" (fun _ => 0) true "T"
          ⟨⟨[("f", [1, 2]), ("f.bak", [9])]⟩, ["yes"], []⟩).1.fs.read "f.bak"
            = some [9])
    ∧ ((restoreFile "f" (fun _ => 0) true "T"
        ⟨⟨[("f", [1, 2]), ("f.bak", [9])]⟩, ["yes"], []⟩).2 = .err .invalidData
      ∧ (restoreFile "f" (fun _ => 0) true "T"
          ⟨⟨[("f", [1, 2]), ("f.bak", [9])]⟩, ["yes"], []⟩).1.fs.read "f"
            = some [1, 2]) := by
  have h := short_copy_cleanup "f" [1, 2] [9] (fun _ => 0) (fun _ => 0) true true "T" "T"
    ⟨⟨[("f", [1, 2]), ("f.bak", [9])]⟩, ["yes"], []⟩
    ⟨⟨[("f", [1, 2]), ("f.bak", [9])]⟩, ["yes"], []⟩
    (by decide) (by decide) (by decide) (Or.inr (by decide)) (by decide)
    (by decide) (by decide) (Or.inr (by decide)) (by decide)
  refine ⟨⟨h.1.1, h.1.2.1, ?_⟩, h.2.1, ?_⟩
  · rw [h.1.2.2 "f.bak" (by decide)]
    decide
  · rw [h.2.2.2 "f" (by decide)]
    decide

theorem backupFile_invalid_eq (filename : String) (copied : Nat → Nat) (logOk : Bool)
    (ts : String) (w : World) (h : isValidFilename filename = false) :
    backupFile filename copied logOk ts w = (w, .err .invalidInput) := by
  simp [backupFile, h]

theorem backupFile_toolarge_eq (filename : String) (c : List Nat) (copied : Nat → Nat)
    (logOk : Bool) (ts : String) (w : World)
    (hvalid : isValidFilename filename = true)
    (hread : w.fs.read filename = some c)
    (hbig : MAX_FILE_SIZE < c.length) :
    backupFile filename copied logOk ts w = (w, .err .invalidInput) := by
  simp only [backupFile, hvalid, hread]
  rw [if_neg (by simp), if_pos hbig]

/-- C1: if a file's bytes are saved by a backup that actually performs the
copy (no pre-existing `.bak`, or the overwrite confirmed with "yes") and
returns success, and then a restore of the same filename (its overwrite
prompt likewise confirmed) returns success, the restored file holds exactly
the original bytes. -/
theorem backup_restore_roundtrip (f : String) (c : List Nat) (w : World)
    (copied copied2 : Nat → Nat) (logOk logOk2 : Bool) (ts ts2 : String)
    (hread : w.fs.read f = some c)
    (hnc1 : w.fs.existsFile (f ++ ".bak") = false
        ∨ toLower (trim (readLine w.stdin).1) = "yes")
    (hb : (backupFile f copied logOk ts w).2 = .ok)
    (hnc2 : (backupFile f copied logOk ts w).1.fs.existsFile f = false
        ∨ toLower (trim (readLine (backupFile f copied logOk ts w).1.stdin).1) = "yes")
    (hr : (restoreFile f copied2 logOk2 ts2 (backupFile f copied logOk ts w).1).2 = .ok) :
    (restoreFile f copied2 logOk2 ts2 (backupFile f copied logOk ts w).1).1.fs.read f
      = some c := by
  cases hv : isValidFilename f with
  | false =>
    rw [backupFile_invalid_eq f copied logOk ts w hv] at hb
    exact absurd hb (by simp)
  | true =>
    by_cases hsz : MAX_FILE_SIZE < c.length
    · rw [backupFile_toolarge_eq f c copied logOk ts w hv hread hsz] at hb
      exact absurd hb (by simp)
    · obtain ⟨stdin2, heq⟩ := backupFile_runs_copy f c copied logOk ts w hv hread hsz hnc1
      rw [heq] at hb
      obtain ⟨hfull, hlog⟩ := copyThenRename_ok_inv c (f ++ ".bak") copied
        ("Performed backup on " ++ f) logOk ts ⟨w.fs, stdin2, w.log⟩ hb
      subst hlog
      rw [copyThenRename_full_eq c (f ++ ".bak") copied
        ("Performed backup on " ++ f) ts ⟨w.fs, stdin2, w.log⟩ hfull] at heq
      have hfsB : (backupFile f copied true ts w).1.fs
          = (w.fs.write (f ++ ".bak" ++ ".tmp") c).rename
              (f ++ ".bak" ++ ".tmp") (f ++ ".bak") := by
        rw [heq]
      have hreadtmp : (w.fs.write (f ++ ".bak" ++ ".tmp") c).read
          (f ++ ".bak" ++ ".tmp") = some c := FS.read_write_self w.fs _ c
      have hbakB : (backupFile f copied true ts w).1.fs.read (f ++ ".bak") = some c := by
        rw [hfsB]
        exact FS.rename_read_dst _ _ _ c hreadtmp
      have hfB : (backupFile f copied true ts w).1.fs.read f = some c := by
        rw [hfsB, FS.rename_read_other _ _ _ f c hreadtmp
          (Ne.symm (append2_ne_self f ".bak" ".tmp" (by decide)))
          (Ne.symm (append_ne_self f ".bak" (by decide))),
          FS.read_write_ne w.fs _ f c (Ne.symm (append2_ne_self f ".bak" ".tmp" (by decide)))]
        exact hread
      obtain ⟨stdin3, heqr⟩ := restoreFile_runs_copy f c copied2 logOk2 ts2
        (backupFile f copied true ts w).1 hv hbakB hsz hnc2
      rw [heqr] at hr
      obtain ⟨hfull2, hlog2⟩ := copyThenRename_ok_inv c f copied2
        ("Performed restore on " ++ f) logOk2 ts2 _ hr
      subst hlog2
      rw [heqr, copyThenRename_full_eq c f copied2 ("Performed restore on " ++ f) ts2 _ hfull2]
      exact FS.rename_read_dst _ _ _ c (FS.read_write_self _ _ c)

/-- C1 witness: backing up and restoring a concrete three-byte file
reproduces its contents exactly. -/
theorem backup_restore_roundtrip_witness :
    (restoreFile "f" id true "T2"
        (backupFile "f" id true "T" ⟨⟨[("f", [1, 2, 3])]⟩, ["yes"], []⟩).1).1.fs.read "f"
      = some [1, 2, 3] :=
  backup_restore_roundtrip "f" [1, 2, 3] ⟨⟨[("f", [1, 2, 3])]⟩, ["yes"], []⟩
    id id true true "T" "T2"
    (by decide) (Or.inl (by decide)) (by decide) (Or.inr (by decide)) (by decide)

theorem mainProg_exit_eq (copied : Nat → Nat) (logOk : Bool) (ts : String) (w : World) :
    (mainProg copied logOk ts w).1
      = if isValidFilename (trim (readLine w.stdin).1) = false then 1
        else if trim (readLine (readLine w.stdin).2).1 = "backup" then
          (if (backupFile (trim (readLine w.stdin).1) copied logOk ts
              ⟨w.fs, (readLine (readLine w.stdin).2).2, w.log⟩).2 = .ok then 0 else 1)
        else if trim (readLine (readLine w.stdin).2).1 = "restore" then
          (if (restoreFile (trim (readLine w.stdin).1) copied logOk ts
              ⟨w.fs, (readLine (readLine w.stdin).2).2, w.log⟩).2 = .ok then 0 else 1)
        else if trim (readLine (readLine w.stdin).2).1 = "delete" then
          (if (deleteFile (trim (readLine w.stdin).1) logOk ts
              ⟨w.fs, (readLine (readLine w.stdin).2).2, w.log⟩).2 = .ok then 0 else 1)
        else 1 := by
  unfold mainProg
  by_cases hv : isValidFilename (trim (readLine w.stdin).1) = false
  · simp [hv]
  · rw [if_neg hv, if_neg hv]
    by_cases hcb : trim (readLine (readLine w.stdin).2).1 = "backup"
    · rw [if_pos hcb, if_pos hcb]
      cases hB : backupFile (trim (readLine w.stdin).1) copied logOk ts
          ⟨w.fs, (readLine (readLine w.stdin).2).2, w.log⟩ with
      | mk w3 r =>
        cases r with
        | ok => simp
        | err e => simp
    · rw [if_neg hcb, if_neg hcb]
      by_cases hcr : trim (readLine (readLine w.stdin).2).1 = "restore"
      · rw [if_pos hcr, if_pos hcr]
        cases hR : restoreFile (trim (readLine w.stdin).1) copied logOk ts
            ⟨w.fs, (readLine (readLine w.stdin).2).2, w.log⟩ with
        | mk w3 r =>
          cases r with
          | ok => simp
          | err e => simp
      · rw [if_neg hcr, if_neg hcr]
        by_cases hcd : trim (readLine (readLine w.stdin).2).1 = "delete"
        · rw [if_pos hcd, if_pos hcd]
          cases hD : deleteFile (trim (readLine w.stdin).1) logOk ts
              ⟨w.fs, (readLine (readLine w.stdin).2).2, w.log⟩ with
          | mk w3 r =>
            cases r with
            | ok => simp
            | err e => simp
        · rw [if_neg hcd, if_neg hcd]

/-- C6: the process exit code is always 0 or 1; it equals 1 when the filename
fails validation or the command is unknown, and for the three known commands
it is 0 exactly when the dispatched operation returns success.  In particular
a user-declined overwrite during backup or restore (operation returns Ok)
exits 0, while a refused delete confirmation (PermissionDenied) exits 1. -/
theorem exit_code_policy (copied : Nat → Nat) (logOk : Bool) (ts : String)
    (w : World) (cb cr : List Nat) :
    ((mainProg copied logOk ts w).1 = 0 ∨ (mainProg copied logOk ts w).1 = 1)
    ∧ ((mainProg copied logOk ts w).1
        = if isValidFilename (trim (readLine w.stdin).1) = false then 1
          else if trim (readLine (readLine w.stdin).2).1 = "backup" then
            (if (backupFile (trim (readLine w.stdin).1) copied logOk ts
                ⟨w.fs, (readLine (readLine w.stdin).2).2, w.log⟩).2 = .ok then 0 else 1)
          else if trim (readLine (readLine w.stdin).2).1 = "restore" then
            (if (restoreFile (trim (readLine w.stdin).1) copied logOk ts
                ⟨w.fs, (readLine (readLine w.stdin).2).2, w.log⟩).2 = .ok then 0 else 1)
          else if trim (readLine (readLine w.stdin).2).1 = "delete" then
            (if (deleteFile (trim (readLine w.stdin).1) logOk ts
                ⟨w.fs, (readLine (readLine w.stdin).2).2, w.log⟩).2 = .ok then 0 else 1)
          else 1)
    ∧ (isValidFilename (trim (readLine w.stdin).1) = true →
        trim (readLine (readLine w.stdin).2).1 = "backup" →
        w.fs.read (trim (readLine w.stdin).1) = some cb →
        ¬ MAX_FILE_SIZE < cb.length →
        w.fs.existsFile (trim (readLine w.stdin).1 ++ ".bak") = true →
        toLower (trim (readLine (readLine (readLine w.stdin).2).2).1) ≠ "yes" →
        (mainProg copied logOk ts w).1 = 0)
    ∧ (isValidFilename (trim (readLine w.stdin).1) = true →
        trim (readLine (readLine w.stdin).2).1 = "restore" →
        w.fs.read (trim (readLine w.stdin).1 ++ ".bak") = some cr →
        ¬ MAX_FILE_SIZE < cr.length →
        w.fs.existsFile (trim (readLine w.stdin).1) = true →
        toLower (trim (readLine (readLine (readLine w.stdin).2).2).1) ≠ "yes" →
        (mainProg copied logOk ts w).1 = 0)
    ∧ (isValidFilename (trim (readLine w.stdin).1) = true →
        trim (readLine (readLine w.stdin).2).1 = "delete" →
        w.fs.existsFile (trim (readLine w.stdin).1) = true →
        trim (readLine (readLine (readLine w.stdin).2).2).1 ≠ "DELETE" →
        (mainProg copied logOk ts w).1 = 1) := by
  have heq := mainProg_exit_eq copied logOk ts w
  refine ⟨?_, heq, ?_, ?_, ?_⟩
  · rw [heq]
    split_ifs <;> simp
  · intro hv hcmd hrd hsz hbak hno
    rw [heq, if_neg (by simp [hv]), if_pos hcmd,
      backupFile_cancel_eq (trim (readLine w.stdin).1) cb copied logOk ts
        ⟨w.fs, (readLine (readLine w.stdin).2).2, w.log⟩ hv hrd hsz hbak hno]
    simp
  · intro hv hcmd hrd hsz htgt hno
    rw [heq, if_neg (by simp [hv]), if_neg (by rw [hcmd]; decide), if_pos hcmd,
      restoreFile_cancel_eq (trim (readLine w.stdin).1) cr copied logOk ts
        ⟨w.fs, (readLine (readLine w.stdin).2).2, w.log⟩ hv hrd hsz htgt hno]
    simp
  · intro hv hcmd hex hno
    rw [heq, if_neg (by simp [hv]), if_neg (by rw [hcmd]; decide),
      if_neg (by rw [hcmd]; decide), if_pos hcmd,
      deleteFile_cancel_eq (trim (readLine w.stdin).1) logOk ts
        ⟨w.fs, (readLine (readLine w.stdin).2).2, w.log⟩ hv hex hno]
    simp

/-- C6 witness: a declined backup overwrite prompt exits 0, and a refused
delete confirmation (lower-case "delete") exits 1. -/
theorem exit_code_policy_witness :
    (mainProg id true "T"
        ⟨⟨[("notes.txt", [104]), ("notes.txt.bak", [55])]⟩,
         ["notes.txt", "backup", "no"], []⟩).1 = 0
    ∧ (mainProg id true "T"
        ⟨⟨[("secret.txt", [7])]⟩, ["secret.txt", "delete", "delete"], []⟩).1 = 1 :=
  ⟨(exit_code_policy id true "T"
      ⟨⟨[("notes.txt", [104]), ("notes.txt.bak", [55])]⟩,
       ["notes.txt", "backup", "no"], []⟩ [104] []).2.2.1
      (by decide) (by decide) (by decide) (by decide) (by decide) (by decide),
   (exit_code_policy id true "T"
      ⟨⟨[("secret.txt", [7])]⟩, ["secret.txt", "delete", "delete"], []⟩ [] []).2.2.2.2
      (by decide) (by decide) (by decide) (by decide)⟩

end SafeBackup
